import Mathlib

/-!
Verification of the synthetic price-feed subsystem (the MockWebSocket class in
the repository, file src/lib/websocket-mock.ts in the original layout).

The class is shallowly embedded as a state machine. JavaScript numbers are
modelled as exact rationals for the operational model and as real numbers for
the Box-Muller arithmetic; JS Map objects become functions into Option; the
event-loop timers become an explicit pending-timer list, with one firing per
driver command, so that the cancellation behaviour of close() is represented
exactly: close() clears only the timer id stored in intervalId, while the
constructor's connect timer and the first update timer are never stored there.
Randomness (Math.random draws) is passed in as explicit parameters of each
step.  Consumer-visible callbacks (onopen, onmessage, onerror, onclose) are
modelled as an append-only event log.
-/

namespace Eterna

/-- A parsed client message as produced by JSON.parse in MockWebSocket.send:
an object with optional type, channel and tokens fields. -/
structure ClientMsg where
  type : Option String
  channel : Option String
  tokens : Option (List String)

/-- Outcome of the HTTP fetch inside fetchInitialPrice: either the request
failed (response not ok, or the thrown error path), or it returned a JSON
body whose data.value field may be absent. -/
inductive FetchResult
  | httpError
  | ok (value : Option ℚ)
deriving DecidableEq

/-- The two kinds of callbacks that MockWebSocket passes to setTimeout:
the connect callback from the constructor, and the emitUpdate callback. -/
inductive TimerTask
  | connectT
  | emitT
deriving DecidableEq

/-- Consumer-visible events: onopen, onclose (with code and reason), onerror,
and onmessage carrying a price message. The timestamp field is ambient wall
clock time and carries no information in the model, so it is omitted. -/
inductive Ev
  | openEv
  | closeEv (code : Nat) (reason : String)
  | errorEv
  | priceMsg (address : String) (price : ℚ) (priceChange24h : ℚ) (volume24h : ℚ)
deriving DecidableEq

/-- The WebSocket readyState constants used by the class. -/
def CONNECTING : Nat := 0

/-- readyState value for an open socket. -/
def OPENST : Nat := 1

/-- readyState value for a closed socket. -/
def CLOSEDST : Nat := 3

/-- State of a MockWebSocket instance, together with the pending timers of the
event loop, the log of initial-price lookups that have been started
(fetchInitialPrice calls), and the log of events delivered to the consumer. -/
structure MWS where
  readyState : Nat
  subscribedTokens : List String
  tokenPrices : String → Option ℚ
  priceHistory : String → Option (List ℚ)
  volatility : String → Option ℚ
  intervalId : Option Nat
  timers : List (Nat × TimerTask × ℚ)
  nextId : Nat
  pendingFetches : List String
  events : List Ev

/-- Map.set on the modelled JS Map. -/
def mapSet (m : String → Option α) (k : String) (v : α) : String → Option α :=
  fun x => if x = k then some v else m x

/-- setTimeout: append a pending timer with a fresh id, returning the id. -/
def setTimeoutT (s : MWS) (t : TimerTask) (delay : ℚ) : MWS × Nat :=
  ({ s with timers := s.timers ++ [(s.nextId, t, delay)], nextId := s.nextId + 1 },
   s.nextId)

/-- clearTimeout: drop the pending timer with the given id, if any. -/
def clearTimeoutT (s : MWS) (i : Nat) : MWS :=
  { s with timers := s.timers.filter (fun e => e.1 != i) }

/-- The constructor: readyState starts at CONNECTING and a connect timer with
a 100ms delay is scheduled; its id is not recorded anywhere. -/
def initMWS : MWS :=
  { readyState := CONNECTING
    subscribedTokens := []
    tokenPrices := fun _ => none
    priceHistory := fun _ => none
    volatility := fun _ => none
    intervalId := none
    timers := [(0, TimerTask.connectT, 100)]
    nextId := 1
    pendingFetches := []
    events := [] }

/-- The price-floor formula of the update loop:
newPrice = Math.max(0.000001, currentPrice * (1 + changePercent)). -/
def nextPrice (currentPrice changePercent : ℚ) : ℚ :=
  max (1/1000000) (currentPrice * (1 + changePercent))

/-- history.push(newPrice) followed by history.shift() when the length
exceeds 10. -/
def pushHistory (history : List ℚ) (newPrice : ℚ) : List ℚ :=
  let h := history ++ [newPrice]
  if h.length > 10 then h.tail else h

/-- The body of the per-token forEach inside emitUpdate. The parameter z gives
the standard-normal sample that generatePriceChange produces for this token
on this tick (the Box-Muller output before scaling by volatility), and w gives
the uniform draw used for the simulated volume. -/
def emitToken (z w : String → ℚ) (s : MWS) (address : String) : MWS :=
  let currentPrice := (s.tokenPrices address).getD 0
  if currentPrice = 0 then s
  else
    let history := (s.priceHistory address).getD []
    let vol := (s.volatility address).getD (2/100)
    let changePercent := z address * vol
    let newPrice := nextPrice currentPrice changePercent
    let history2 := pushHistory history newPrice
    let priceChange24h :=
      if history2.length > 1 then (newPrice - history2.headI) / history2.headI * 100
      else changePercent * 100
    let volume24h := currentPrice * (1000 + w address * 5000)
    { s with
      tokenPrices := mapSet s.tokenPrices address newPrice
      priceHistory := mapSet s.priceHistory address history2
      events := s.events ++ [Ev.priceMsg address newPrice priceChange24h volume24h] }

/-- The emitUpdate callback: bail out unless the socket is open (in that case
no further timer is scheduled), otherwise update every subscribed token in
this one callback and schedule a single next emitUpdate timer with delay
1000 + d * 2000 where d is the uniform draw; its id is stored in intervalId. -/
def emitUpdate (z w : String → ℚ) (d : ℚ) (s : MWS) : MWS :=
  if s.readyState ≠ OPENST then s
  else
    let s1 := s.subscribedTokens.foldl (emitToken z w) s
    let r := setTimeoutT s1 TimerTask.emitT (1000 + d * 2000)
    { r.1 with intervalId := some r.2 }

/-- The connect callback: readyState becomes OPEN, onopen fires, and
startPriceUpdates schedules the first emitUpdate after 1000ms without
recording its id in intervalId. -/
def connect (s : MWS) : MWS :=
  let s1 := { s with readyState := OPENST, events := s.events ++ [Ev.openEv] }
  (setTimeoutT s1 TimerTask.emitT 1000).1

/-- The per-token initialisation inside the subscribe branch of send: tokens
that already have a stored price are left alone; a token without one gets a
fetchInitialPrice call started (logged in pendingFetches) and a volatility of
0.01 + vu * 0.05 where vu is the uniform draw for that token. -/
def subscribeInit (vu : String → ℚ) (s : MWS) (address : String) : MWS :=
  if (s.tokenPrices address).isSome then s
  else
    { s with
      pendingFetches := s.pendingFetches ++ [address]
      volatility := mapSet s.volatility address (1/100 + vu address * (5/100)) }

/-- MockWebSocket.send on an already-parsed message: refused unless the socket
is open; a subscribe message on the price channel assigns subscribedTokens to
exactly the listed tokens (message.tokens or the empty list) and runs the
per-token initialisation; an unsubscribe message filters out the listed
tokens. -/
def send (s : MWS) (m : ClientMsg) (vu : String → ℚ) : MWS :=
  if s.readyState ≠ OPENST then s
  else
    let s1 :=
      if m.type = some "subscribe" ∧ m.channel = some "price" then
        let s2 := { s with subscribedTokens := m.tokens.getD [] }
        (m.tokens.getD []).foldl (subscribeInit vu) s2
      else s
    if m.type = some "unsubscribe" then
      { s1 with subscribedTokens :=
          s1.subscribedTokens.filter (fun addr => !((m.tokens.getD []).contains addr)) }
    else s1

/-- Resolution of a fetchInitialPrice call: when the response is ok and its
data.value is present, truthy and positive, store it; in every other case
(HTTP error, missing value, zero or non-positive value) fall back to the
random price 0.01 + u * 100, where u is the uniform draw. No consumer event
is emitted on either path. -/
def fetchInitialPriceResolve (s : MWS) (address : String) (r : FetchResult) (u : ℚ) : MWS :=
  match r with
  | FetchResult.ok (some price) =>
      if price ≠ 0 ∧ 0 < price then
        { s with tokenPrices := mapSet s.tokenPrices address price }
      else
        { s with tokenPrices := mapSet s.tokenPrices address (1/100 + u * 100) }
  | _ => { s with tokenPrices := mapSet s.tokenPrices address (1/100 + u * 100) }

/-- MockWebSocket.close: clear the timer whose id is stored in intervalId (and
only that one), move to CLOSED and fire onclose with the given or default code
and reason. -/
def close (s : MWS) (code : Option Nat) (reason : Option String) : MWS :=
  let s1 :=
    match s.intervalId with
    | some i => { clearTimeoutT s i with intervalId := none }
    | none => s
  { s1 with
    readyState := CLOSEDST
    events := s1.events ++ [Ev.closeEv (code.getD 1000) (reason.getD "Normal closure")] }

/-- Driver commands: fire a pending timer (supplying the random draws its
callback will consume), deliver a send call, resolve a started fetch, or call
close. -/
inductive Cmd
  | fireTimer (i : Nat) (z w : String → ℚ) (d : ℚ)
  | sendMsg (m : ClientMsg) (vu : String → ℚ)
  | resolveFetch (address : String) (r : FetchResult) (u : ℚ)
  | closeWS (code : Option Nat) (reason : Option String)

/-- Firing timer i: a no-op when no such timer is pending; otherwise the timer
is consumed and its callback runs. -/
def fireTimer (s : MWS) (i : Nat) (z w : String → ℚ) (d : ℚ) : MWS :=
  match (s.timers.find? (fun e => e.1 == i)).map (fun e => e.2.1) with
  | none => s
  | some t =>
      let s1 := { s with timers := s.timers.filter (fun e => e.1 != i) }
      match t with
      | TimerTask.connectT => connect s1
      | TimerTask.emitT => emitUpdate z w d s1

/-- One driver step. -/
def step (s : MWS) (c : Cmd) : MWS :=
  match c with
  | Cmd.fireTimer i z w d => fireTimer s i z w d
  | Cmd.sendMsg m vu => send s m vu
  | Cmd.resolveFetch a r u => fetchInitialPriceResolve s a r u
  | Cmd.closeWS code reason => close s code reason

/-- Run a list of driver commands. -/
def run (s : MWS) (cs : List Cmd) : MWS := cs.foldl step s

/-! Basic lemmas about the map model and the fold combinators. -/

theorem mapSet_same (m : String → Option α) (k : String) (v : α) : mapSet m k v k = some v := by
  simp [mapSet]

theorem mapSet_other (m : String → Option α) (k x : String) (v : α) (hx : x ≠ k) :
    mapSet m k v x = m x := by
  simp [mapSet, hx]

theorem foldl_preserve {α : Type} {P : MWS → Prop} {f : MWS → α → MWS}
    (hf : ∀ s a, P s → P (f s a)) :
    ∀ (l : List α) (s : MWS), P s → P (l.foldl f s) := by
  intro l
  induction l with
  | nil => intro s hs; exact hs
  | cons a t ih => intro s hs; exact ih _ (hf s a hs)

/-- subscribeInit only touches volatility and pendingFetches. -/
theorem subscribeInit_fields (vu : String → ℚ) (s : MWS) (a : String) :
    (subscribeInit vu s a).readyState = s.readyState ∧
    (subscribeInit vu s a).subscribedTokens = s.subscribedTokens ∧
    (subscribeInit vu s a).tokenPrices = s.tokenPrices ∧
    (subscribeInit vu s a).priceHistory = s.priceHistory ∧
    (subscribeInit vu s a).intervalId = s.intervalId ∧
    (subscribeInit vu s a).timers = s.timers ∧
    (subscribeInit vu s a).nextId = s.nextId ∧
    (subscribeInit vu s a).events = s.events := by
  unfold subscribeInit
  split <;> simp

theorem foldl_subscribeInit_tokenPrices (vu : String → ℚ) (l : List String) (s : MWS) :
    (l.foldl (subscribeInit vu) s).tokenPrices = s.tokenPrices := by
  induction l generalizing s with
  | nil => rfl
  | cons a t ih =>
      rw [List.foldl_cons, ih, (subscribeInit_fields vu s a).2.2.1]

theorem foldl_subscribeInit_priceHistory (vu : String → ℚ) (l : List String) (s : MWS) :
    (l.foldl (subscribeInit vu) s).priceHistory = s.priceHistory := by
  induction l generalizing s with
  | nil => rfl
  | cons a t ih =>
      rw [List.foldl_cons, ih, (subscribeInit_fields vu s a).2.2.2.1]

theorem foldl_subscribeInit_events (vu : String → ℚ) (l : List String) (s : MWS) :
    (l.foldl (subscribeInit vu) s).events = s.events := by
  induction l generalizing s with
  | nil => rfl
  | cons a t ih =>
      rw [List.foldl_cons, ih, (subscribeInit_fields vu s a).2.2.2.2.2.2.2]

theorem foldl_subscribeInit_subscribedTokens (vu : String → ℚ) (l : List String) (s : MWS) :
    (l.foldl (subscribeInit vu) s).subscribedTokens = s.subscribedTokens := by
  induction l generalizing s with
  | nil => rfl
  | cons a t ih =>
      rw [List.foldl_cons, ih, (subscribeInit_fields vu s a).2.1]

/-- send never changes the stored prices. -/
theorem send_tokenPrices (s : MWS) (m : ClientMsg) (vu : String → ℚ) :
    (send s m vu).tokenPrices = s.tokenPrices := by
  unfold send
  split
  · rfl
  · split <;> split <;> simp [foldl_subscribeInit_tokenPrices]

/-- send never changes the price histories. -/
theorem send_priceHistory (s : MWS) (m : ClientMsg) (vu : String → ℚ) :
    (send s m vu).priceHistory = s.priceHistory := by
  unfold send
  split
  · rfl
  · split <;> split <;> simp [foldl_subscribeInit_priceHistory]

/-- send emits no consumer event. -/
theorem send_events (s : MWS) (m : ClientMsg) (vu : String → ℚ) :
    (send s m vu).events = s.events := by
  unfold send
  split
  · rfl
  · split <;> split <;> simp [foldl_subscribeInit_events]

/-- close only cancels the tracked timer, sets CLOSED and appends the close
event; prices and histories are untouched. -/
theorem close_fields (s : MWS) (code : Option Nat) (reason : Option String) :
    (close s code reason).tokenPrices = s.tokenPrices ∧
    (close s code reason).priceHistory = s.priceHistory ∧
    (close s code reason).events =
      s.events ++ [Ev.closeEv (code.getD 1000) (reason.getD "Normal closure")] := by
  unfold close
  rcases hI : s.intervalId with _ | i <;> simp [hI, clearTimeoutT]

/-- emitToken only touches tokenPrices, priceHistory and events. -/
theorem emitToken_fields (z w : String → ℚ) (s : MWS) (a : String) :
    (emitToken z w s a).readyState = s.readyState ∧
    (emitToken z w s a).subscribedTokens = s.subscribedTokens ∧
    (emitToken z w s a).volatility = s.volatility ∧
    (emitToken z w s a).intervalId = s.intervalId ∧
    (emitToken z w s a).timers = s.timers ∧
    (emitToken z w s a).nextId = s.nextId ∧
    (emitToken z w s a).pendingFetches = s.pendingFetches := by
  unfold emitToken
  dsimp only
  split <;> simp

theorem foldl_emitToken_timers (z w : String → ℚ) (l : List String) (s : MWS) :
    (l.foldl (emitToken z w) s).timers = s.timers := by
  induction l generalizing s with
  | nil => rfl
  | cons a t ih =>
      rw [List.foldl_cons, ih, (emitToken_fields z w s a).2.2.2.2.1]

theorem foldl_emitToken_nextId (z w : String → ℚ) (l : List String) (s : MWS) :
    (l.foldl (emitToken z w) s).nextId = s.nextId := by
  induction l generalizing s with
  | nil => rfl
  | cons a t ih =>
      rw [List.foldl_cons, ih, (emitToken_fields z w s a).2.2.2.2.2.1]

/-! The two elementary facts about the history buffer operation. -/

/-- Pushing onto a history of at most 10 entries leaves at most 10 entries. -/
theorem pushHistory_length_le (h : List ℚ) (p : ℚ) (hh : h.length ≤ 10) :
    (pushHistory h p).length ≤ 10 := by
  unfold pushHistory
  dsimp only
  split
  · next hgt =>
      simp only [List.length_tail, List.length_append, List.length_singleton]
      omega
  · next hle =>
      simp only [List.length_append, List.length_singleton] at hle ⊢
      omega

/-- When the buffer is full, the push evicts exactly the oldest entry. -/
theorem pushHistory_eviction (h : List ℚ) (p : ℚ) (hlen : h.length = 10) :
    pushHistory h p = h.tail ++ [p] := by
  unfold pushHistory
  dsimp only
  rw [if_pos (by simp [hlen])]
  cases h with
  | nil => simp at hlen
  | cons x t => simp

/-- The floor formula never goes below the positive floor. -/
theorem nextPrice_pos (p c : ℚ) : 0 < nextPrice p c := by
  have h : (0:ℚ) < 1/1000000 := by norm_num
  exact lt_of_lt_of_le h (le_max_left _ _)

/-! State invariants. -/

/-- Every stored price history holds at most 10 entries. -/
def HistBound (s : MWS) : Prop :=
  ∀ a h, s.priceHistory a = some h → h.length ≤ 10

/-- Every stored price is strictly positive. -/
def PricesPos (s : MWS) : Prop :=
  ∀ a p, s.tokenPrices a = some p → 0 < p

/-- Validity of the random draws a driver command carries: the uniform draw
used for a fallback price lies in the unit interval, as Math.random
guarantees. -/
def cmdValid : Cmd → Prop
  | Cmd.resolveFetch _ _ u => 0 ≤ u
  | _ => True

/-- Trace induction: a property preserved by every step under a per-command
side condition holds after any run whose commands satisfy the condition. -/
theorem run_preserve {P : MWS → Prop} {Q : Cmd → Prop}
    (hstep : ∀ s c, Q c → P s → P (step s c)) :
    ∀ (cs : List Cmd) (s : MWS), P s → (∀ c ∈ cs, Q c) → P (run s cs) := by
  intro cs
  induction cs with
  | nil => intro s hs _; exact hs
  | cons c t ih =>
      intro s hs hq
      have h1 : P (step s c) := hstep s c (hq c (List.mem_cons_self c t)) hs
      exact ih (step s c) h1 (fun c2 hc2 => hq c2 (List.mem_cons_of_mem c hc2))

/-! Preservation of the history bound. -/

theorem emitToken_histBound (z w : String → ℚ) (s : MWS) (a : String) (hs : HistBound s) :
    HistBound (emitToken z w s a) := by
  unfold emitToken
  dsimp only
  split
  · exact hs
  · intro b hb hsome
    dsimp only at hsome
    by_cases hba : b = a
    · subst hba
      rw [mapSet_same] at hsome
      injection hsome with heq
      subst heq
      apply pushHistory_length_le
      cases hh : s.priceHistory b with
      | none => simp [hh]
      | some l => simpa [hh] using hs b l hh
    · rw [mapSet_other _ _ _ _ hba] at hsome
      exact hs b hb hsome

theorem emitUpdate_histBound (z w : String → ℚ) (d : ℚ) (s : MWS) (hs : HistBound s) :
    HistBound (emitUpdate z w d s) := by
  unfold emitUpdate
  split
  · exact hs
  · have hfold : HistBound (s.subscribedTokens.foldl (emitToken z w) s) :=
      foldl_preserve (fun t a ht => emitToken_histBound z w t a ht) _ _ hs
    intro b hb hsome
    exact hfold b hb (by simpa [setTimeoutT] using hsome)

theorem step_histBound (s : MWS) (c : Cmd) (hs : HistBound s) : HistBound (step s c) := by
  cases c with
  | fireTimer i z w d =>
      show HistBound (fireTimer s i z w d)
      unfold fireTimer
      cases hfind : Option.map (fun e => e.2.1) (List.find? (fun e => e.1 == i) s.timers) with
      | none => exact hs
      | some t =>
          cases t with
          | connectT => exact fun b hb h => hs b hb h
          | emitT =>
              exact emitUpdate_histBound z w d _ (fun b hb h => hs b hb h)
  | sendMsg m vu =>
      intro b hb h
      rw [show (step s (Cmd.sendMsg m vu)).priceHistory = s.priceHistory from
        send_priceHistory s m vu] at h
      exact hs b hb h
  | resolveFetch a r u =>
      intro b hb h
      unfold step fetchInitialPriceResolve at h
      cases r with
      | httpError => exact hs b hb h
      | ok v =>
          cases v with
          | none => exact hs b hb h
          | some p =>
              dsimp only at h
              split at h <;> exact hs b hb h
  | closeWS code reason =>
      intro b hb h
      rw [show (step s (Cmd.closeWS code reason)).priceHistory = s.priceHistory from
        (close_fields s code reason).2.1] at h
      exact hs b hb h

/-! Preservation of price positivity. -/

theorem emitToken_pricesPos (z w : String → ℚ) (s : MWS) (a : String) (hs : PricesPos s) :
    PricesPos (emitToken z w s a) := by
  unfold emitToken
  dsimp only
  split
  · exact hs
  · intro b p hsome
    dsimp only at hsome
    by_cases hba : b = a
    · subst hba
      rw [mapSet_same] at hsome
      injection hsome with heq
      subst heq
      exact nextPrice_pos _ _
    · rw [mapSet_other _ _ _ _ hba] at hsome
      exact hs b p hsome

theorem emitUpdate_pricesPos (z w : String → ℚ) (d : ℚ) (s : MWS) (hs : PricesPos s) :
    PricesPos (emitUpdate z w d s) := by
  unfold emitUpdate
  split
  · exact hs
  · have hfold : PricesPos (s.subscribedTokens.foldl (emitToken z w) s) :=
      foldl_preserve (fun t a ht => emitToken_pricesPos z w t a ht) _ _ hs
    intro b p hsome
    exact hfold b p (by simpa [setTimeoutT] using hsome)

/-- The random fallback price 0.01 + u * 100 is positive for any u in [0,1). -/
theorem fallback_pos (u : ℚ) (hu : 0 ≤ u) : 0 < 1/100 + u * 100 := by
  have h : 0 ≤ u * 100 := mul_nonneg hu (by norm_num)
  linarith

theorem fetchResolve_pricesPos (s : MWS) (a : String) (r : FetchResult) (u : ℚ)
    (hu : 0 ≤ u) (hs : PricesPos s) : PricesPos (fetchInitialPriceResolve s a r u) := by
  intro b p hsome
  unfold fetchInitialPriceResolve at hsome
  have hset : ∀ q : ℚ, 0 < q → mapSet s.tokenPrices a q b = some p → 0 < p := by
    intro q hq hmem
    by_cases hba : b = a
    · subst hba
      rw [mapSet_same] at hmem
      injection hmem with hmem
      subst hmem
      exact hq
    · rw [mapSet_other _ _ _ _ hba] at hmem
      exact hs b p hmem
  cases r with
  | httpError => exact hset _ (fallback_pos u hu) hsome
  | ok v =>
      cases v with
      | none => exact hset _ (fallback_pos u hu) hsome
      | some q =>
          dsimp only at hsome
          split at hsome
          · next hcond => exact hset _ hcond.2 hsome
          · exact hset _ (fallback_pos u hu) hsome

theorem step_pricesPos (s : MWS) (c : Cmd) (hq : cmdValid c) (hs : PricesPos s) :
    PricesPos (step s c) := by
  cases c with
  | fireTimer i z w d =>
      show PricesPos (fireTimer s i z w d)
      unfold fireTimer
      cases hfind : Option.map (fun e => e.2.1) (List.find? (fun e => e.1 == i) s.timers) with
      | none => exact hs
      | some t =>
          cases t with
          | connectT => exact fun b p h => hs b p h
          | emitT => exact emitUpdate_pricesPos z w d _ (fun b p h => hs b p h)
  | sendMsg m vu =>
      intro b p h
      rw [show (step s (Cmd.sendMsg m vu)).tokenPrices = s.tokenPrices from
        send_tokenPrices s m vu] at h
      exact hs b p h
  | resolveFetch a r u => exact fetchResolve_pricesPos s a r u hq hs
  | closeWS code reason =>
      intro b p h
      rw [show (step s (Cmd.closeWS code reason)).tokenPrices = s.tokenPrices from
        (close_fields s code reason).1] at h
      exact hs b p h

/-! An instrument whose initial-price resolution has not completed. -/

/-- The instrument a has no stored price and no price message for it has ever
been delivered. -/
def Inert (a : String) (s : MWS) : Prop :=
  s.tokenPrices a = none ∧ ∀ e ∈ s.events, ∀ p q v, e ≠ Ev.priceMsg a p q v

theorem emitToken_inert (z w : String → ℚ) (s : MWS) (b a : String) (hs : Inert a s) :
    Inert a (emitToken z w s b) := by
  unfold emitToken
  dsimp only
  split
  · exact hs
  · next hne =>
      have hba : b ≠ a := by
        intro hcon
        subst hcon
        rw [hs.1] at hne
        simp at hne
      constructor
      · show mapSet s.tokenPrices b _ a = none
        rw [mapSet_other _ _ _ _ (Ne.symm hba)]
        exact hs.1
      · intro e he p q v
        rcases List.mem_append.mp he with h | h
        · exact hs.2 e h p q v
        · rw [List.mem_singleton] at h
          subst h
          intro hcon
          injection hcon with haddr
          exact hba haddr

theorem emitUpdate_inert (z w : String → ℚ) (d : ℚ) (s : MWS) (a : String) (hs : Inert a s) :
    Inert a (emitUpdate z w d s) := by
  unfold emitUpdate
  split
  · exact hs
  · have hfold : Inert a (s.subscribedTokens.foldl (emitToken z w) s) :=
      foldl_preserve (fun t b ht => emitToken_inert z w t b a ht) _ _ hs
    exact ⟨hfold.1, by simpa [setTimeoutT] using hfold.2⟩

theorem connect_inert (s : MWS) (a : String) (hs : Inert a s) : Inert a (connect s) := by
  refine ⟨hs.1, ?_⟩
  intro e he p q v
  unfold connect setTimeoutT at he
  dsimp only at he
  rcases List.mem_append.mp he with h | h
  · exact hs.2 e h p q v
  · rw [List.mem_singleton] at h
    subst h
    intro hcon
    cases hcon

theorem fetchResolve_inert (s : MWS) (b : String) (r : FetchResult) (u : ℚ) (a : String)
    (hba : b ≠ a) (hs : Inert a s) : Inert a (fetchInitialPriceResolve s b r u) := by
  have hpr : (fetchInitialPriceResolve s b r u).tokenPrices a = none := by
    unfold fetchInitialPriceResolve
    cases r with
    | httpError => dsimp only; rw [mapSet_other _ _ _ _ (Ne.symm hba)]; exact hs.1
    | ok v =>
        cases v with
        | none => dsimp only; rw [mapSet_other _ _ _ _ (Ne.symm hba)]; exact hs.1
        | some q =>
            dsimp only
            split <;> (dsimp only; rw [mapSet_other _ _ _ _ (Ne.symm hba)]; exact hs.1)
  have hev : (fetchInitialPriceResolve s b r u).events = s.events := by
    unfold fetchInitialPriceResolve
    cases r with
    | httpError => dsimp only
    | ok v =>
        cases v with
        | none => dsimp only
        | some q => dsimp only; split <;> rfl
  exact ⟨hpr, by rw [hev]; exact hs.2⟩

theorem step_inert (s : MWS) (c : Cmd) (a : String)
    (hc : ∀ r u, c ≠ Cmd.resolveFetch a r u) (hs : Inert a s) : Inert a (step s c) := by
  cases c with
  | fireTimer i z w d =>
      show Inert a (fireTimer s i z w d)
      unfold fireTimer
      cases hfind : Option.map (fun e => e.2.1) (List.find? (fun e => e.1 == i) s.timers) with
      | none => exact hs
      | some t =>
          cases t with
          | connectT => exact connect_inert _ a ⟨hs.1, hs.2⟩
          | emitT => exact emitUpdate_inert z w d _ a ⟨hs.1, hs.2⟩
  | sendMsg m vu =>
      refine ⟨?_, ?_⟩
      · rw [show (step s (Cmd.sendMsg m vu)).tokenPrices = s.tokenPrices from
          send_tokenPrices s m vu]
        exact hs.1
      · rw [show (step s (Cmd.sendMsg m vu)).events = s.events from send_events s m vu]
        exact hs.2
  | resolveFetch b r u =>
      have hba : b ≠ a := by
        intro hcon
        subst hcon
        exact hc r u rfl
      exact fetchResolve_inert s b r u a hba hs
  | closeWS code reason =>
      refine ⟨?_, ?_⟩
      · rw [show (step s (Cmd.closeWS code reason)).tokenPrices = s.tokenPrices from
          (close_fields s code reason).1]
        exact hs.1
      · rw [show (step s (Cmd.closeWS code reason)).events =
            s.events ++ [Ev.closeEv (code.getD 1000) (reason.getD "Normal closure")] from
          (close_fields s code reason).2.2]
        intro e he p q v
        rcases List.mem_append.mp he with h | h
        · exact hs.2 e h p q v
        · rw [List.mem_singleton] at h
          subst h
          intro hcon
          cases hcon

/-! Behaviour of send on the two message kinds, while the socket is open. -/


/-- An unsubscribe message only filters the subscription set. -/
theorem send_unsubscribe_eq (s : MWS) (ts : List String) (vu : String → ℚ)
    (hopen : s.readyState = OPENST) :
    send s ⟨some "unsubscribe", none, some ts⟩ vu =
      { s with subscribedTokens :=
          s.subscribedTokens.filter (fun addr => !(ts.contains addr)) } := by
  simp [send, hopen, OPENST]

/-- Subscribing a single token that already has a stored price changes only
the subscription set: no fetch is started and the volatility is kept. -/
theorem send_subscribe_existing (s : MWS) (a : String) (vu : String → ℚ)
    (hopen : s.readyState = OPENST) (hsome : (s.tokenPrices a).isSome) :
    send s ⟨some "subscribe", some "price", some [a]⟩ vu =
      { s with subscribedTokens := [a] } := by
  simp [send, hopen, OPENST, subscribeInit, hsome]


/-! The claims. -/

/-- A generic open session used to instantiate theorems at a concrete state. -/
def openState : MWS := { initMWS with readyState := OPENST }

/-- A seeded open session holding a stored price of 5 for instrument a. -/
def seededState : MWS :=
  { initMWS with
    readyState := OPENST
    subscribedTokens := ["a"]
    tokenPrices := mapSet (fun _ => none) "a" 5 }

/-- Trace for the C1 counterexample: open, subscribe to a, then receive a
subscribe message listing only b. -/
def claim1trace : List Cmd :=
  [Cmd.fireTimer 0 (fun _ => 0) (fun _ => 0) 0,
   Cmd.sendMsg ⟨some "subscribe", some "price", some ["a"]⟩ (fun _ => 0),
   Cmd.sendMsg ⟨some "subscribe", some "price", some ["b"]⟩ (fun _ => 0)]

/-- Claim C1 is false on the code: after subscribing to a, a subscribe message
listing only b leaves the subscription set as exactly b. The previously
subscribed id a is dropped, contradicting the claimed union semantics under
which a would remain subscribed. -/
theorem claim1_counterexample :
    (run initMWS claim1trace).subscribedTokens = ["b"] ∧
    "a" ∉ (run initMWS claim1trace).subscribedTokens := by
  have h : (run initMWS claim1trace).subscribedTokens = ["b"] := by
    simp [run, claim1trace, step, fireTimer, initMWS, connect, setTimeoutT, send,
      subscribeInit, mapSet, OPENST, CONNECTING]
  refine ⟨h, ?_⟩
  rw [h]
  simp

/-- Claim C1 amended: for every session in the Open state, processing a
subscribe message on the price channel replaces the Subscription Set with
exactly the listed ids; ids absent from the message are dropped, and
re-processing the same message is idempotent on the set. -/
theorem claim1_subscribe_replaces (s : MWS) (ts : List String) (vu : String → ℚ)
    (hopen : s.readyState = OPENST) :
    (send s ⟨some "subscribe", some "price", some ts⟩ vu).subscribedTokens = ts := by
  simp [send, hopen, OPENST, foldl_subscribeInit_subscribedTokens]

theorem claim1_subscribe_replaces_witness :
    (send openState ⟨some "subscribe", some "price", some ["a", "b"]⟩
      (fun _ => 0)).subscribedTokens = ["a", "b"] :=
  claim1_subscribe_replaces openState ["a", "b"] (fun _ => 0) rfl

/-- Trace for the C2 counterexample: open, subscribe a and b, resolve both
initial prices, then fire the single pending update timer once. -/
def claim2trace : List Cmd :=
  [Cmd.fireTimer 0 (fun _ => 0) (fun _ => 0) 0,
   Cmd.sendMsg ⟨some "subscribe", some "price", some ["a", "b"]⟩ (fun _ => 0),
   Cmd.resolveFetch "a" (FetchResult.ok (some 5)) 0,
   Cmd.resolveFetch "b" (FetchResult.ok (some 7)) 0,
   Cmd.fireTimer 1 (fun _ => 0) (fun _ => 0) 0]

/-- Claim C2 is false on the code: with two active instruments, firing the one
pending update timer emits a price update for both instruments in that single
callback, and afterwards exactly one update timer is pending for the whole
session. Updates are a global tick, not per-instrument independent
schedules. -/
theorem claim2_counterexample :
    (run initMWS claim2trace).events =
      [Ev.openEv, Ev.priceMsg "a" 5 0 5000, Ev.priceMsg "b" 7 0 7000] ∧
    (run initMWS claim2trace).timers = [(2, TimerTask.emitT, 1000)] := by
  simp [run, claim2trace, step, fireTimer, initMWS, connect, setTimeoutT, send, subscribeInit,
    mapSet, fetchInitialPriceResolve, emitUpdate, emitToken, nextPrice, pushHistory,
    OPENST, CONNECTING]
  norm_num

/-- Claim C2 amended: all active instruments are updated together inside one
emitUpdate callback, which then schedules a single shared follow-up timer
whose delay 1000 + d * 2000 lies in [1000, 3000) for any uniform draw d in
[0, 1); there is no per-instrument schedule. -/
theorem claim2_global_tick (s : MWS) (z w : String → ℚ) (d : ℚ)
    (hopen : s.readyState = OPENST) (h0 : 0 ≤ d) (h1 : d < 1) :
    (emitUpdate z w d s).timers = s.timers ++ [(s.nextId, TimerTask.emitT, 1000 + d * 2000)] ∧
    (emitUpdate z w d s).nextId = s.nextId + 1 ∧
    1000 ≤ 1000 + d * 2000 ∧ 1000 + d * 2000 < 3000 := by
  have hne : ¬(s.readyState ≠ OPENST) := by simp [hopen]
  unfold emitUpdate
  rw [if_neg hne]
  dsimp only [setTimeoutT]
  refine ⟨?_, ?_, by nlinarith, by nlinarith⟩
  · rw [foldl_emitToken_timers, foldl_emitToken_nextId]
  · rw [foldl_emitToken_nextId]

theorem claim2_global_tick_witness :
    (emitUpdate (fun _ => 0) (fun _ => 0) (1/2) openState).timers =
      openState.timers ++ [(openState.nextId, TimerTask.emitT, 1000 + (1/2) * 2000)] ∧
    (emitUpdate (fun _ => 0) (fun _ => 0) (1/2) openState).nextId = openState.nextId + 1 ∧
    1000 ≤ 1000 + (1/2 : ℚ) * 2000 ∧ 1000 + (1/2 : ℚ) * 2000 < 3000 :=
  claim2_global_tick openState (fun _ => 0) (fun _ => 0) (1/2) rfl (by norm_num) (by norm_num)

/-- Trace for C3: close() is called while the session is still Connecting;
the constructor connect timer, which close() does not cancel, then fires,
the consumer resubscribes on the resulting open notification, the initial
price resolves, and the first update timer fires. -/
def claim3trace : List Cmd :=
  [Cmd.closeWS none none,
   Cmd.fireTimer 0 (fun _ => 0) (fun _ => 0) 0,
   Cmd.sendMsg ⟨some "subscribe", some "price", some ["a"]⟩ (fun _ => 0),
   Cmd.resolveFetch "a" (FetchResult.ok (some 5)) 0,
   Cmd.fireTimer 1 (fun _ => 0) (fun _ => 0) 0]

/-- Claim C3 fails on the code when close() is called during Connecting:
close() cancels only the timer id stored in intervalId, which is null at that
point, so the pending connect timer survives, later reopens the session (the
open notification arrives after the closed one) and a price update is
delivered to the consumer after close(). The events after the trace are
exactly closed, then opened, then a price update. -/
theorem claim3_close_race_bug :
    (run initMWS claim3trace).events =
      [Ev.closeEv 1000 "Normal closure", Ev.openEv, Ev.priceMsg "a" 5 0 5000] ∧
    (run initMWS claim3trace).readyState = OPENST := by
  simp [run, claim3trace, step, fireTimer, initMWS, connect, setTimeoutT, send, subscribeInit,
    mapSet, fetchInitialPriceResolve, emitUpdate, emitToken, nextPrice, pushHistory,
    close, clearTimeoutT, OPENST, CONNECTING, CLOSEDST]
  norm_num

/-- Claim C4: from any session whose stored histories hold at most 10 entries
(in particular a fresh one), any run of the system keeps every instrument
history at 10 entries or fewer, and when a full buffer receives a new price
the evicted entry is exactly the oldest one. -/
theorem claim4_history_bounded_fifo (s : MWS) (cs : List Cmd) (h : List ℚ) (p : ℚ)
    (hs : HistBound s) (hlen : h.length = 10) :
    HistBound (run s cs) ∧ pushHistory h p = h.tail ++ [p] :=
  ⟨run_preserve (fun t c _ ht => step_histBound t c ht) cs s hs (fun _ _ => trivial),
   pushHistory_eviction h p hlen⟩

theorem claim4_witness :
    HistBound (run initMWS [Cmd.fireTimer 0 (fun _ => 0) (fun _ => 0) 0]) ∧
    pushHistory [1, 2, 3, 4, 5, 6, 7, 8, 9, 10] 11 =
      [1, 2, 3, 4, 5, 6, 7, 8, 9, 10].tail ++ [11] :=
  claim4_history_bounded_fifo initMWS [Cmd.fireTimer 0 (fun _ => 0) (fun _ => 0) 0]
    [1, 2, 3, 4, 5, 6, 7, 8, 9, 10] 11
    (fun a h h0 => by simp [initMWS] at h0) (by simp)

/-- Claim C5: for every volatility v > 0, every current price p > 0 and any
standard-normal sample z, however extreme, the generated price is exactly
max(1e-6, p * (1 + z * v)) and is strictly positive. -/
theorem claim5_price_floor (p v z : ℚ) (_hv : 0 < v) (_hp : 0 < p) :
    nextPrice p (z * v) = max (1/1000000) (p * (1 + z * v)) ∧ 0 < nextPrice p (z * v) :=
  ⟨rfl, nextPrice_pos p (z * v)⟩

theorem claim5_witness :
    nextPrice 100 ((-50) * (2/100)) = max (1/1000000) (100 * (1 + (-50) * (2/100))) ∧
    0 < nextPrice 100 ((-50) * (2/100)) :=
  claim5_price_floor 100 (2/100) (-50) (by norm_num) (by norm_num)

/-- Trace for the C6 witness: open, subscribe a, fire one update tick; the
initial price of a never resolves. -/
def claim6trace : List Cmd :=
  [Cmd.fireTimer 0 (fun _ => 0) (fun _ => 0) 0,
   Cmd.sendMsg ⟨some "subscribe", some "price", some ["a"]⟩ (fun _ => 0),
   Cmd.fireTimer 1 (fun _ => 0) (fun _ => 0) 0]

/-- Claim C6: if instrument a has no stored price and no price message for it
was ever delivered, then over any run in which the initial-price resolution
for a never completes, a still has no stored price and no price message for a
is ever delivered: the emission loop skips it. -/
theorem claim6_inert_no_updates (s : MWS) (cs : List Cmd) (a : String)
    (h0 : s.tokenPrices a = none)
    (he : ∀ e ∈ s.events, ∀ p q v, e ≠ Ev.priceMsg a p q v)
    (hr : ∀ c ∈ cs, ∀ r u, c ≠ Cmd.resolveFetch a r u) :
    (run s cs).tokenPrices a = none ∧
    ∀ e ∈ (run s cs).events, ∀ p q v, e ≠ Ev.priceMsg a p q v := by
  have h := run_preserve (P := Inert a) (Q := fun c => ∀ r u, c ≠ Cmd.resolveFetch a r u)
    (fun t c hq ht => step_inert t c a hq ht) cs s ⟨h0, he⟩ hr
  exact ⟨h.1, h.2⟩

theorem claim6_witness :
    (run initMWS claim6trace).tokenPrices "a" = none ∧
    ∀ e ∈ (run initMWS claim6trace).events, ∀ p q v, e ≠ Ev.priceMsg "a" p q v :=
  claim6_inert_no_updates initMWS claim6trace "a" rfl
    (by intro e he p q v; simp [initMWS] at he)
    (by
      intro c hc r u
      simp only [claim6trace, List.mem_cons, List.not_mem_nil, or_false] at hc
      rcases hc with rfl | rfl | rfl <;> (intro hcon; cases hcon))

/-- Claim C7: while the session is open and instrument a has a stored price p,
an unsubscribe for a followed by a subscribe for a leaves the stored price at
p, starts no new initial-price lookup, keeps the volatility map unchanged,
and a is subscribed again. -/
theorem claim7_resubscribe_resumes (s : MWS) (a : String) (p : ℚ) (vu1 vu2 : String → ℚ)
    (hopen : s.readyState = OPENST) (hp : s.tokenPrices a = some p) :
    (send (send s ⟨some "unsubscribe", none, some [a]⟩ vu1)
        ⟨some "subscribe", some "price", some [a]⟩ vu2).tokenPrices a = some p ∧
    (send (send s ⟨some "unsubscribe", none, some [a]⟩ vu1)
        ⟨some "subscribe", some "price", some [a]⟩ vu2).pendingFetches = s.pendingFetches ∧
    (send (send s ⟨some "unsubscribe", none, some [a]⟩ vu1)
        ⟨some "subscribe", some "price", some [a]⟩ vu2).volatility = s.volatility ∧
    a ∈ (send (send s ⟨some "unsubscribe", none, some [a]⟩ vu1)
        ⟨some "subscribe", some "price", some [a]⟩ vu2).subscribedTokens := by
  rw [send_unsubscribe_eq s [a] vu1 hopen]
  rw [send_subscribe_existing
    { s with subscribedTokens := s.subscribedTokens.filter (fun addr => !([a].contains addr)) }
    a vu2 hopen (by simp [hp])]
  exact ⟨hp, rfl, rfl, by simp⟩

theorem claim7_witness :
    (send (send seededState ⟨some "unsubscribe", none, some ["a"]⟩ (fun _ => 0))
        ⟨some "subscribe", some "price", some ["a"]⟩ (fun _ => 0)).tokenPrices "a" = some 5 ∧
    (send (send seededState ⟨some "unsubscribe", none, some ["a"]⟩ (fun _ => 0))
        ⟨some "subscribe", some "price", some ["a"]⟩ (fun _ => 0)).pendingFetches =
      seededState.pendingFetches ∧
    (send (send seededState ⟨some "unsubscribe", none, some ["a"]⟩ (fun _ => 0))
        ⟨some "subscribe", some "price", some ["a"]⟩ (fun _ => 0)).volatility =
      seededState.volatility ∧
    "a" ∈ (send (send seededState ⟨some "unsubscribe", none, some ["a"]⟩ (fun _ => 0))
        ⟨some "subscribe", some "price", some ["a"]⟩ (fun _ => 0)).subscribedTokens :=
  claim7_resubscribe_resumes seededState "a" 5 (fun _ => 0) (fun _ => 0) rfl
    (by simp [seededState, mapSet])

/-- A fetch outcome on which fetchInitialPrice takes its failure path: HTTP
error, missing value, or a value that is not a positive number. -/
def fetchFailed : FetchResult → Prop
  | FetchResult.httpError => True
  | FetchResult.ok none => True
  | FetchResult.ok (some v) => ¬(v ≠ 0 ∧ 0 < v)

/-- Claim C8: when the initial-price lookup for instrument a fails, the
session stores the fallback price 0.01 + u * 100, which lies in
[0.01, 100.01) for the uniform draw u in [0, 1), and delivers no consumer
event at all (in particular no error event). -/
theorem claim8_fallback_recovery (s : MWS) (a : String) (r : FetchResult) (u : ℚ)
    (hf : fetchFailed r) (h0 : 0 ≤ u) (h1 : u < 1) :
    (fetchInitialPriceResolve s a r u).tokenPrices a = some (1/100 + u * 100) ∧
    1/100 ≤ 1/100 + u * 100 ∧ 1/100 + u * 100 < 10001/100 ∧
    (fetchInitialPriceResolve s a r u).events = s.events := by
  have harith1 : (1:ℚ)/100 ≤ 1/100 + u * 100 := by nlinarith
  have harith2 : (1:ℚ)/100 + u * 100 < 10001/100 := by nlinarith
  cases r with
  | httpError =>
      exact ⟨by unfold fetchInitialPriceResolve; dsimp only; rw [mapSet_same],
        harith1, harith2, rfl⟩
  | ok v =>
      cases v with
      | none =>
          exact ⟨by unfold fetchInitialPriceResolve; dsimp only; rw [mapSet_same],
            harith1, harith2, rfl⟩
      | some q =>
          have hcond : ¬(q ≠ 0 ∧ 0 < q) := hf
          refine ⟨?_, harith1, harith2, ?_⟩
          · unfold fetchInitialPriceResolve
            dsimp only
            rw [if_neg hcond]
            dsimp only
            rw [mapSet_same]
          · unfold fetchInitialPriceResolve
            dsimp only
            rw [if_neg hcond]

theorem claim8_witness :
    (fetchInitialPriceResolve initMWS "a" FetchResult.httpError (1/2)).tokenPrices "a" =
      some (1/100 + (1/2) * 100) ∧
    1/100 ≤ 1/100 + (1/2 : ℚ) * 100 ∧ 1/100 + (1/2 : ℚ) * 100 < 10001/100 ∧
    (fetchInitialPriceResolve initMWS "a" FetchResult.httpError (1/2)).events =
      initMWS.events :=
  claim8_fallback_recovery initMWS "a" FetchResult.httpError (1/2) trivial
    (by norm_num) (by norm_num)

/-- Claim C10: from any session whose stored prices are all positive (in
particular a fresh one), any run whose fallback draws are nonnegative keeps
every stored price strictly positive: accepted lookups are positive, the
fallback is at least 0.01, and generated updates are floored at 1e-6. This
makes 0 an unambiguous not-yet-initialized sentinel in the emission loop. -/
theorem claim10_prices_positive (s : MWS) (cs : List Cmd) (hs : PricesPos s)
    (hv : ∀ c ∈ cs, cmdValid c) : PricesPos (run s cs) :=
  run_preserve step_pricesPos cs s hs hv

theorem claim10_witness :
    PricesPos (run initMWS [Cmd.resolveFetch "a" FetchResult.httpError (1/2)]) :=
  claim10_prices_positive initMWS [Cmd.resolveFetch "a" FetchResult.httpError (1/2)]
    (fun a p h0 => by simp [initMWS] at h0)
    (by
      intro c hc
      simp only [List.mem_cons, List.not_mem_nil, or_false] at hc
      subst hc
      show (0:ℚ) ≤ 1/2
      norm_num)

/-! Claim C9: the Box-Muller arithmetic, over the reals. -/

/-- MockWebSocket.generatePriceChange with the two uniform draws made
explicit: z0 = sqrt(-2 ln u1) * cos(2 pi u2), scaled by the volatility.
Real-valued, hence noncomputable, like every transcendental function here. -/
noncomputable def generatePriceChange (u1 u2 volatility : ℝ) : ℝ :=
  Real.sqrt (-2 * Real.log u1) * Real.cos (2 * Real.pi * u2) * volatility

/-- The price-floor formula over the reals. -/
noncomputable def nextPriceR (currentPrice changePercent : ℝ) : ℝ :=
  max (1/1000000) (currentPrice * (1 + changePercent))

/-- Claim C9: with currentPrice 100, volatility 0.02, u1 = 1/2 and u2 = 0,
the deterministic z = sqrt(-2 ln(1/2)) cos(0) is within 0.001 of 1.1774, the
relative change is within 0.0001 of 0.02354, and the new price is within 0.01
of 102.354. -/
theorem claim9_box_muller_example :
    |Real.sqrt (-2 * Real.log (1/2)) * Real.cos (2 * Real.pi * 0) - 1.1774| < 1/1000 ∧
    |generatePriceChange (1/2) 0 (2/100) - 0.02354| < 1/10000 ∧
    |nextPriceR 100 (generatePriceChange (1/2) 0 (2/100)) - 102.354| < 1/100 := by
  have hlog : Real.log (1/2 : ℝ) = -Real.log 2 := by
    rw [one_div, Real.log_inv]
  have harg : (-2 : ℝ) * Real.log (1/2) = 2 * Real.log 2 := by rw [hlog]; ring
  have hl1 : (0.6931471803 : ℝ) < Real.log 2 := Real.log_two_gt_d9
  have hl2 : Real.log 2 < 0.6931471808 := Real.log_two_lt_d9
  have hcos : Real.cos (2 * Real.pi * 0) = 1 := by rw [mul_zero, Real.cos_zero]
  have hsq_nonneg : (0:ℝ) ≤ 2 * Real.log 2 := by nlinarith
  have hs_lb : (1.1764 : ℝ) < Real.sqrt (2 * Real.log 2) := by
    rw [show (1.1764:ℝ) = Real.sqrt (1.1764 ^ 2) from (Real.sqrt_sq (by norm_num)).symm]
    apply Real.sqrt_lt_sqrt (by norm_num)
    nlinarith
  have hs_ub : Real.sqrt (2 * Real.log 2) < 1.1784 := by
    rw [show (1.1784:ℝ) = Real.sqrt (1.1784 ^ 2) from (Real.sqrt_sq (by norm_num)).symm]
    apply Real.sqrt_lt_sqrt hsq_nonneg
    nlinarith
  have hz : Real.sqrt (-2 * Real.log (1/2)) * Real.cos (2 * Real.pi * 0) =
      Real.sqrt (2 * Real.log 2) := by
    rw [harg, hcos, mul_one]
  have hgp : generatePriceChange (1/2) 0 (2/100) = Real.sqrt (2 * Real.log 2) * (2/100) := by
    show Real.sqrt (-2 * Real.log (1/2)) * Real.cos (2 * Real.pi * 0) * (2/100) =
      Real.sqrt (2 * Real.log 2) * (2/100)
    rw [hz]
  refine ⟨?_, ?_, ?_⟩
  · rw [hz, abs_sub_lt_iff]
    constructor <;> nlinarith
  · rw [hgp, abs_sub_lt_iff]
    constructor <;> nlinarith
  · have hmax : nextPriceR 100 (generatePriceChange (1/2) 0 (2/100)) =
        100 * (1 + generatePriceChange (1/2) 0 (2/100)) := by
      unfold nextPriceR
      apply max_eq_right
      rw [hgp]
      nlinarith
    rw [hmax, hgp, abs_sub_lt_iff]
    constructor <;> nlinarith

end Eterna
